import Mathlib

/-!
# Verification of the bot-panel process supervisor (`src/panel.js`)

A shallow embedding of the supervisor in `src/panel.js`.  JavaScript objects
used as string-keyed dictionaries (`runningBots`, `db.bots`, the per-bot `env`
object) are modelled as association lists `List (String × α)`; property read
is `alookup`, property write is `jsSet` (update in place if the key exists,
append otherwise, matching JS insertion-order semantics), property removal is
`jsDelete`, and the two-object spread `{ ...a, ...b }` is `jsSpread2`.
-/

set_option autoImplicit false

namespace BotPanel

variable {α : Type}

/-- JS property read `obj[k]`: the value at the first matching key, if any. -/
def alookup (k : String) : List (String × α) → Option α
  | [] => none
  | (k', v) :: rest => if k' = k then some v else alookup k rest

/-- Rewrite the value stored at key `k` (if present) through `f`; models a JS
property mutation `obj[k] = f(obj[k])` on a key known to be present. -/
def updAssoc (l : List (String × α)) (k : String) (f : α → α) : List (String × α) :=
  l.map (fun p => if p.1 = k then (k, f p.2) else p)

/-- JS property write `obj[k] = v`: overwrite in place when the key exists,
otherwise append the new key at the end (JS insertion order). -/
def jsSet (l : List (String × α)) (k : String) (v : α) : List (String × α) :=
  if (alookup k l).isSome then updAssoc l k (fun _ => v) else l ++ [(k, v)]

/-- JS property removal `delete obj[k]`. -/
def jsDelete (l : List (String × α)) (k : String) : List (String × α) :=
  l.filter (fun p => p.1 ≠ k)

/-- The two-object spread `{ ...a, ...b }`: keys of `a` first (with `b`'s
value whenever `b` also has the key), then the keys of `b` not in `a`. -/
def jsSpread2 (a b : List (String × α)) : List (String × α) :=
  a.map (fun p => match alookup p.1 b with | some v => (p.1, v) | none => p)
    ++ b.filter (fun q => (alookup q.1 a).isNone)

@[simp] theorem alookup_nil (k : String) : alookup k ([] : List (String × α)) = none := rfl

@[simp] theorem alookup_cons (k k' : String) (v : α) (rest : List (String × α)) :
    alookup k ((k', v) :: rest) = if k' = k then some v else alookup k rest := rfl

theorem alookup_append (k : String) (l₁ l₂ : List (String × α)) :
    alookup k (l₁ ++ l₂) = ((alookup k l₁).elim (alookup k l₂) some) := by
  induction l₁ with
  | nil => simp
  | cons p rest ih =>
    obtain ⟨k', v⟩ := p
    by_cases h : k' = k <;> simp [h, ih]

theorem alookup_updAssoc_self (l : List (String × α)) (k : String) (f : α → α) (v : α)
    (h : alookup k l = some v) : alookup k (updAssoc l k f) = some (f v) := by
  induction l with
  | nil => simp at h
  | cons p rest ih =>
    obtain ⟨k', w⟩ := p
    by_cases hk : k' = k
    · subst hk
      simp at h
      simp [updAssoc, h]
    · simp [hk] at h
      simp [updAssoc, hk] at ih ⊢
      exact ih h

theorem alookup_updAssoc_ne (l : List (String × α)) (k k' : String) (f : α → α)
    (h : k' ≠ k) : alookup k' (updAssoc l k f) = alookup k' l := by
  induction l with
  | nil => simp [updAssoc]
  | cons p rest ih =>
    obtain ⟨k₀, w⟩ := p
    by_cases hk : k₀ = k
    · subst hk
      simp [updAssoc, Ne.symm h] at ih ⊢
      exact ih
    · by_cases hk' : k₀ = k'
      · subst hk'
        simp [updAssoc, hk]
      · simp [updAssoc, hk, hk'] at ih ⊢
        exact ih

theorem alookup_jsSet_self (l : List (String × α)) (k : String) (v : α) :
    alookup k (jsSet l k v) = some v := by
  unfold jsSet
  by_cases h : (alookup k l).isSome
  · obtain ⟨w, hw⟩ := Option.isSome_iff_exists.mp h
    simp [h, alookup_updAssoc_self l k (fun _ => v) w hw]
  · simp [h, alookup_append, Option.not_isSome_iff_eq_none.mp h]

theorem alookup_jsSet_ne (l : List (String × α)) (k k' : String) (v : α) (h : k' ≠ k) :
    alookup k' (jsSet l k v) = alookup k' l := by
  unfold jsSet
  by_cases hs : (alookup k l).isSome
  · simp [hs, alookup_updAssoc_ne l k k' _ h]
  · simp [hs, alookup_append]
    cases hl : alookup k' l <;> simp [hl, Ne.symm h]

theorem alookup_jsDelete_self (l : List (String × α)) (k : String) :
    alookup k (jsDelete l k) = none := by
  induction l with
  | nil => simp [jsDelete]
  | cons p rest ih =>
    obtain ⟨k', v⟩ := p
    by_cases hk : k' = k <;> simp [jsDelete, hk] at ih ⊢ <;> simpa [hk] using ih

theorem alookup_jsDelete_ne (l : List (String × α)) (k k' : String) (h : k' ≠ k) :
    alookup k' (jsDelete l k) = alookup k' l := by
  induction l with
  | nil => simp [jsDelete]
  | cons p rest ih =>
    obtain ⟨k₀, v⟩ := p
    by_cases hk : k₀ = k
    · subst hk
      simp [jsDelete, Ne.symm h] at ih ⊢
      exact ih
    · by_cases hk' : k₀ = k'
      · subst hk'
        simp [jsDelete, hk]
      · simp [jsDelete, hk, hk'] at ih ⊢
        exact ih

theorem alookup_map_override (a b : List (String × α)) (k : String) :
    alookup k (a.map (fun p => match alookup p.1 b with | some v => (p.1, v) | none => p))
      = (alookup k a).map (fun w => (alookup k b).getD w) := by
  induction a with
  | nil => simp
  | cons p rest ih =>
    obtain ⟨k', v⟩ := p
    by_cases hk : k' = k
    · subst hk
      cases hb : alookup k' b <;> simp [hb]
    · cases hb : alookup k' b <;> simp [hb, hk, ih]

theorem alookup_filter_notin (a b : List (String × α)) (k : String) :
    alookup k (b.filter (fun q => (alookup q.1 a).isNone))
      = if (alookup k a).isSome then none else alookup k b := by
  induction b with
  | nil => simp
  | cons q rest ih =>
    obtain ⟨k', v⟩ := q
    rw [List.filter_cons]
    cases ha : (alookup k' a).isNone with
    | true =>
      by_cases hk : k' = k
      · subst hk
        simp [ha, Option.isNone_iff_eq_none.mp ha]
      · simp [ha, hk, ih]
    | false =>
      have has : (alookup k' a).isSome := by
        cases h : alookup k' a <;> simp [h] at ha ⊢
      by_cases hk : k' = k
      · subst hk
        simp [ha, ih, has]
      · simp [ha, hk, ih]

/-- Lookup in the spread `{ ...a, ...b }`: `b`'s binding wins, else `a`'s. -/
theorem alookup_jsSpread2 (a b : List (String × α)) (k : String) :
    alookup k (jsSpread2 a b) = ((alookup k b).elim (alookup k a) some) := by
  unfold jsSpread2
  rw [alookup_append, alookup_map_override, alookup_filter_notin]
  cases hb : alookup k b <;> cases ha : alookup k a <;> simp [ha, hb]

/-! ## Data model

State of the supervisor process (`panel.js`):
* `runningBots` (line 36) — the table of live child processes, keyed by bot
  name; an entry is the `RunningInstance` of the spec.
* `bots.json` (lines 25–51) — the registry store `{ bots: { name: { env } } }`;
  read with `readDb()` and rewritten whole with `writeDb()` on every mutation.
* the `bots/` directory (line 24) — one working directory per bot.
-/

/-- A bot's persisted `env` overrides object (`db.bots[name].env`). -/
abbrev EnvMap := List (String × String)

/-- The `bots` object of `bots.json`: bot name ↦ registry record (its `env`). -/
abbrev DbMap := List (String × EnvMap)

/-- A `close` listener attached to a child process handle.
`cleanup` is the permanent listener registered by the start handler
(`panel.js` lines 194–198: log, `delete runningBots[botname]`, emit); a
`restartOnce` is the one-shot listener the restart handler attaches
(lines 218–220), capturing the request it will re-dispatch through the app
after the 1-second `setTimeout`. -/
inductive CloseListener where
  | cleanup : CloseListener
  | restartOnce : List String → CloseListener
deriving DecidableEq, Repr

/-- A live child process handle as far as the panel observes it: the ordered
list of `close` listeners attached to it. -/
structure ProcHandle where
  listeners : List CloseListener
deriving DecidableEq, Repr

/-- The `package.json` of a bot directory, as `getMainScript` sees it
(`panel.js` lines 152–159): absent, present but unparsable, or parsed with an
optional `main` field. -/
inductive PkgJson where
  | absent : PkgJson
  | unparsable : PkgJson
  | parsed : Option String → PkgJson
deriving DecidableEq, Repr

/-- A bot's working directory `bots/<name>`: its manifest state and the list
of file names that exist in it (consulted by the `fs.existsSync` probes). -/
structure BotDir where
  pkg : PkgJson
  files : List String
deriving DecidableEq, Repr

/-- The whole observable state of the panel process: the `runningBots` table,
the parsed `bots.json` registry, the `bots/` directory, plus two audit trails
(every `spawn` of a bot process and every `kill()` request) so that "no
process was spawned" is a statement about the state. -/
structure Panel where
  running : List (String × ProcHandle)
  db : DbMap
  fs : List (String × BotDir)
  spawnLog : List (String × String)
  killed : List String
deriving DecidableEq, Repr

/-! ## Listing endpoint (`GET /api/bots`, lines 86–93) -/

inductive BotStatus where
  | Running : BotStatus
  | Stopped : BotStatus
deriving DecidableEq, Repr

/-- Line 90: `status: runningBots[botName] ? 'Running' : 'Stopped'`. -/
def statusOf (st : Panel) (n : String) : BotStatus :=
  if (alookup n st.running).isSome then .Running else .Stopped

/-- `GET /api/bots` (lines 86–93): map over `Object.keys(db.bots)`, reporting
each registered bot with its status derived from the `runningBots` table. -/
def listBots (st : Panel) : List (String × BotStatus) :=
  st.db.map (fun p => (p.1, statusOf st p.1))

/-! ## Entrypoint resolution (`getMainScript`, lines 152–163) -/

/-- Lines 160–162: probe `index.js` then `bot.js` in the bot directory. -/
def probeConventional (d : BotDir) : Option String :=
  if "index.js" ∈ d.files then some "index.js"
  else if "bot.js" ∈ d.files then some "bot.js"
  else none

/-- `getMainScript` (lines 152–163): if `package.json` exists, parses, and its
`main` field is truthy (a non-empty string), return it — without checking that
the named file exists; otherwise fall through to the conventional probes. -/
def getMainScript (d : BotDir) : Option String :=
  match d.pkg with
  | .parsed (some m) => if m = "" then probeConventional d else some m
  | _ => probeConventional d

/-- Whether a manifest `main` is resolvable from the directory: the manifest
parses and declares a truthy (non-empty) `main`. -/
def mainResolvable (d : BotDir) : Bool :=
  match d.pkg with
  | .parsed (some m) => m != ""
  | _ => false

/-! ## Start endpoint (`GET /api/start/:botname`, lines 166–203) -/

inductive StartResult where
  | alreadyRunning : StartResult
  | entrypointNotFound : StartResult
  | started : String → EnvMap → StartResult
deriving DecidableEq, Repr

/-- `GET /api/start/:botname` (lines 166–203):
* line 168: `if (runningBots[botname])` → 400 "Bot is already running.";
* lines 170–175: resolve the entrypoint with `getMainScript`; a missing
  directory has no manifest and no files, and `null` → 404
  "Bot main script not found.";
* lines 178–182: `botEnv = db.bots[botname] ? db.bots[botname].env : {}` and
  `env = { ...process.env, ...botEnv }`;
* lines 185–198: `spawn('node', [mainScript], { cwd, env })`, record the
  handle in `runningBots[botname]`, and register the permanent `close`
  cleanup listener. -/
def startHandler (procEnv : EnvMap) (st : Panel) (n : String) : Panel × StartResult :=
  if (alookup n st.running).isSome then (st, .alreadyRunning)
  else
    let dir := (alookup n st.fs).getD ⟨.absent, []⟩
    match getMainScript dir with
    | none => (st, .entrypointNotFound)
    | some script =>
      let botEnv := (alookup n st.db).getD []
      let env := jsSpread2 procEnv botEnv
      ({ st with
          running := jsSet st.running n ⟨[.cleanup]⟩,
          spawnLog := st.spawnLog ++ [(n, script)] },
        .started script env)

/-! ## Delete endpoint (`GET /api/delete/:botname`, lines 247–269) -/

inductive DeleteResult where
  | busyRunning : DeleteResult
  | deletedOk : DeleteResult
deriving DecidableEq, Repr

/-- `GET /api/delete/:botname` (lines 247–269): line 249 guards with 400
"Bot is running. Stop it first." before touching anything; otherwise the
working directory is removed recursively and the bot's record is deleted from
`bots.json`. -/
def deleteHandler (st : Panel) (n : String) : Panel × DeleteResult :=
  if (alookup n st.running).isSome then (st, .busyRunning)
  else
    ({ st with fs := jsDelete st.fs n, db := jsDelete st.db n }, .deletedOk)

/-! ## Environment-variable endpoints (lines 272–317) -/

/-- An HTTP error response of the env endpoints, with its literal message. -/
inductive ApiErr where
  | badRequest : String → ApiErr
  | notFound : String → ApiErr
deriving DecidableEq, Repr

/-- `GET /api/env/:botname` (lines 272–279): 404 "Bot not found" for an
unregistered bot, else the bot's persisted `env` object. -/
def getEnvHandler (db : DbMap) (n : String) : Except ApiErr EnvMap :=
  match alookup n db with
  | none => .error (.notFound "Bot not found")
  | some e => .ok e

/-- `POST /api/env/:botname` (lines 281–299): line 285 rejects a falsy `key`
(for strings, only `""`) with 400 "Key and Value are required."; line 290
rejects an unregistered bot with 404; otherwise `db.bots[botname].env[key] =
value` followed by `writeDb`.  (`value` is modelled as a string, so the
`value === undefined` half of the guard cannot fire.) -/
def setEnvVarHandler (db : DbMap) (n k v : String) : Except ApiErr DbMap :=
  if k = "" then .error (.badRequest "Key and Value are required.")
  else
    match alookup n db with
    | none => .error (.notFound "Bot not found")
    | some _ => .ok (updAssoc db n (fun e => jsSet e k v))

/-- `POST /api/env/delete/:botname` (lines 301–317): line 305 rejects a falsy
`key` with 400 "Key is required."; line 308 tests
`!db.bots[botname] || !db.bots[botname].env[key]` — a missing bot, a missing
key, **or a falsy stored value** (the empty string) — and answers 404
"Variable not found."; otherwise `delete db.bots[botname].env[key]` followed
by `writeDb`. -/
def deleteEnvVarHandler (db : DbMap) (n k : String) : Except ApiErr DbMap :=
  if k = "" then .error (.badRequest "Key is required.")
  else
    match alookup n db with
    | none => .error (.notFound "Variable not found.")
    | some e =>
      match alookup k e with
      | none => .error (.notFound "Variable not found.")
      | some v =>
        if v = "" then .error (.notFound "Variable not found.")
        else .ok (updAssoc db n (fun e0 => jsDelete e0 k))

/-- The registry store after a call to `POST /api/env/delete/:botname`: the
handler calls `writeDb` only on its success path (line 313), so an error
response leaves the persisted store as it was. -/
def dbAfterEnvDelete (db : DbMap) (n k : String) : DbMap :=
  (deleteEnvVarHandler db n k).toOption.getD db

/-! ## Upload normalization (`POST /api/upload`, lines 119–131) -/

/-- A file-system tree: the contents of an extracted archive. -/
inductive FsTree where
  | file : FsTree
  | dir : List (String × FsTree) → FsTree

/-- The promotion loop of the upload handler (lines 126–128): for each child
of the wrapper directory, in listing order,
`await fs.promises.rename(path.join(nestedPath, file), path.join(extractPath, file))`.
`moved` is the set of children already renamed to the top level; the wrapper
itself is still present throughout the loop.  A directory listing has
pairwise-distinct names and the top level initially holds only the wrapper,
so the destination `extractPath/<child>` exists exactly when the child bears
the wrapper's own name — and then it is the wrapper directory itself, which
is a non-empty directory (it still contains the child being moved), so the
rename fails deterministically (`ENOTEMPTY` for a directory child, `EISDIR`
for a file child).  The thrown error aborts the loop: the result is the
best-effort directory state handed to the catch at line 143 (children moved
so far at top level, the wrapper still in place holding the rest); the
`rmdir` of line 129 never runs.  On success the now-empty wrapper is removed
by that `rmdir` and the top level holds exactly the moved children. -/
def promoteChildren (wname : String) :
    List (String × FsTree) → List (String × FsTree) →
      Except (List (String × FsTree)) (List (String × FsTree))
  | moved, [] => .ok moved
  | moved, (c, t) :: rest =>
    if c = wname then .error (moved ++ [(wname, .dir ((c, t) :: rest))])
    else promoteChildren wname (moved ++ [(c, t)]) rest

/-- The nested-directory auto-fix of the upload handler (lines 119–131):
after extraction, if the directory holds exactly one entry and that entry is
itself a directory, run the promotion loop (`promoteChildren`) and remove the
emptied wrapper.  `.ok` carries the working directory's final contents;
`.error` carries its contents when a rename failed and the handler answered
500 (line 146).  The block is straight-line code, not a loop, so a promotion
that succeeds is never applied recursively to its own result. -/
def autoFixNested (entries : List (String × FsTree)) :
    Except (List (String × FsTree)) (List (String × FsTree)) :=
  match entries with
  | [(n, .dir children)] => promoteChildren n [] children
  | es => .ok es

/-! ## Restart endpoint (`GET /api/restart/:botname`, lines 215–225)

The restart handler reads:
```
if (runningBots[botname]) {
  runningBots[botname].once('close', () => {
    setTimeout(() => app.get('/api/start/:botname', () => {})(req, res), 1000);
  });
  runningBots[botname].kill();
} else {
  app.get('/api/start/:botname', () => {})(req, res);
}
```
The expression `app.get('/api/start/:botname', () => {})` does *not* fetch the
start handler: in Express, the two-argument `app.get(path, handler)` registers
a new route with the given (here empty) handler and returns the `app` object
for chaining.  The `app` object is itself a request-handler function, so the
trailing `(req, res)` dispatches the *original* request — whose URL is still
`/api/restart/<botname>` — through the app's router once more.  The dummy
`/api/start/:botname` route it registers sits after the real start route and
is never reached.  We model a request URL as its path segments and the
router's dispatch as a fuel-indexed function (`none` = the dispatch never
completes within any amount of fuel, i.e. the recursion diverges). -/

/-- The route an Express-style dispatch of a URL selects among the panel's
registered GET routes relevant here. -/
inductive Route where
  | start : String → Route
  | restart : String → Route
  | other : Route
deriving DecidableEq, Repr

/-- Match a URL (as path segments) against the panel's route patterns
`/api/start/:botname` and `/api/restart/:botname`. -/
def parseRoute : List String → Route
  | ["api", "start", n] => .start n
  | ["api", "restart", n] => .restart n
  | _ => .other

/-- The synchronous part of the restart handler's running branch (lines
217–221): attach one more one-shot `close` listener (which captures the
request to re-dispatch later) to the bot's process handle, then `kill()`. -/
def restartAttach (st : Panel) (n : String) (url : List String) : Panel :=
  { st with
      running := updAssoc st.running n (fun p => ⟨p.listeners ++ [.restartOnce url]⟩),
      killed := st.killed ++ [n] }

/-- One dispatch of a request through the Express app, as triggered by
`app.get('/api/start/:botname', () => {})(req, res)` and by the router itself:
* a `/api/start/:botname` URL runs the start handler (lines 166–203);
* a `/api/restart/:botname` URL runs the restart handler (lines 215–225): if
  the bot is running, attach-and-kill; otherwise the else branch re-dispatches
  the *same* request (same URL) through the app, consuming fuel;
* anything else resolves without touching the supervisor state.
`none` means the dispatch did not complete within the given fuel. -/
def dispatchApp : Nat → EnvMap → Panel → List String → Option Panel
  | 0, _, _, _ => none
  | fuel + 1, procEnv, st, url =>
    match parseRoute url with
    | .start n => some (startHandler procEnv st n).1
    | .restart n =>
      match alookup n st.running with
      | some _ => some (restartAttach st n url)
      | none => dispatchApp fuel procEnv st url
    | .other => some st

/-- The `close` event of bot `n`'s process: the listeners attached to the
handle fire in attach order.  The permanent `cleanup` listener (lines 194–198)
deletes `runningBots[n]`; each `restartOnce` listener (lines 218–220) starts a
1-second timer whose callback will re-dispatch its captured request.  Returns
the state after the event together with the list of requests now pending on
timers, in firing order. -/
def fireClose (st : Panel) (n : String) : Panel × List (List String) :=
  match alookup n st.running with
  | none => (st, [])
  | some proc =>
    ({ st with
        running :=
          if CloseListener.cleanup ∈ proc.listeners
          then jsDelete st.running n else st.running },
      proc.listeners.filterMap (fun l =>
        match l with
        | .restartOnce u => some u
        | .cleanup => none))

/-- Re-invoking `GET /api/restart/:botname` `k` times in a row, before the
bot's process has exited (each invocation is a single dispatch, which in the
running branch completes synchronously). -/
def iterateRestart (procEnv : EnvMap) : Nat → Panel → String → Option Panel
  | 0, st, _ => some st
  | k + 1, st, n =>
    match dispatchApp 1 procEnv st ["api", "restart", n] with
    | some st' => iterateRestart procEnv k st' n
    | none => none

/-- The number of restart-registered exit observers on a process handle. -/
def restartObservers (p : ProcHandle) : Nat :=
  p.listeners.countP (fun l =>
    match l with
    | .restartOnce _ => true
    | .cleanup => false)

/-! ## Supporting lemmas -/

theorem alookup_isSome_iff_exists_mem (k : String) (l : List (String × α)) :
    (alookup k l).isSome ↔ ∃ v, (k, v) ∈ l := by
  induction l with
  | nil => simp
  | cons p rest ih =>
    obtain ⟨k', v⟩ := p
    by_cases hk : k' = k
    · subst hk
      simp
    · simp [hk, ih, Ne.symm hk]

theorem mem_listBots (st : Panel) (U : String) (s : BotStatus) :
    (U, s) ∈ listBots st ↔ (∃ e, (U, e) ∈ st.db) ∧ s = statusOf st U := by
  simp only [listBots, List.mem_map, Prod.mk.injEq]
  constructor
  · rintro ⟨⟨a, b⟩, hmem, h1, h2⟩
    subst h1
    exact ⟨⟨b, hmem⟩, h2.symm⟩
  · rintro ⟨⟨e, he⟩, hs⟩
    exact ⟨(U, e), he, rfl, hs.symm⟩

theorem getMainScript_eq_none_iff (d : BotDir) :
    getMainScript d = none ↔
      (mainResolvable d = false ∧ "index.js" ∉ d.files ∧ "bot.js" ∉ d.files) := by
  have hprobe : probeConventional d = none ↔
      ("index.js" ∉ d.files ∧ "bot.js" ∉ d.files) := by
    by_cases h1 : "index.js" ∈ d.files <;> by_cases h2 : "bot.js" ∈ d.files <;>
      simp [probeConventional, h1, h2]
  cases hp : d.pkg with
  | absent => simp [getMainScript, mainResolvable, hp, hprobe]
  | unparsable => simp [getMainScript, mainResolvable, hp, hprobe]
  | parsed mo =>
    cases mo with
    | none => simp [getMainScript, mainResolvable, hp, hprobe]
    | some m =>
      by_cases hm : m = "" <;> simp [getMainScript, mainResolvable, hp, hm, hprobe]

/-! ## Claim theorems -/

/-- C1: for every registered unit `U`, in every observable supervisor state,
`GET /api/bots` reports `U` with status `Running` exactly when an entry for
`U` exists in the `runningBots` table (the `RunningInstance`), and with
status `Stopped` exactly when no such entry exists. -/
theorem listing_reports_running_iff_instance (st : Panel) (U : String)
    (h : (alookup U st.db).isSome) :
    ((U, BotStatus.Running) ∈ listBots st ↔ (alookup U st.running).isSome) ∧
    ((U, BotStatus.Stopped) ∈ listBots st ↔ alookup U st.running = none) := by
  have hmem : ∃ e, (U, e) ∈ st.db := (alookup_isSome_iff_exists_mem U st.db).mp h
  constructor
  · rw [mem_listBots]
    constructor
    · rintro ⟨-, hs⟩
      by_cases hr : (alookup U st.running).isSome
      · exact hr
      · simp [statusOf, hr] at hs
    · intro hr
      exact ⟨hmem, by simp [statusOf, hr]⟩
  · rw [mem_listBots]
    constructor
    · rintro ⟨-, hs⟩
      by_cases hr : (alookup U st.running).isSome
      · simp [statusOf, hr] at hs
      · exact Option.not_isSome_iff_eq_none.mp hr
    · intro hr
      exact ⟨hmem, by simp [statusOf, hr]⟩

/-- C1 witness: a concrete state with `a` running and `c` stopped, where both
directions of the listing equivalence evaluate as stated. -/
theorem listing_reports_running_iff_instance_witness :
    ((("a", BotStatus.Running) ∈
        listBots ⟨[("a", ⟨[.cleanup]⟩)], [("a", []), ("c", [])], [], [], []⟩ ↔
      (alookup "a"
        (Panel.mk [("a", ⟨[.cleanup]⟩)] [("a", []), ("c", [])] [] [] []).running).isSome) ∧
     (("a", BotStatus.Stopped) ∈
        listBots ⟨[("a", ⟨[.cleanup]⟩)], [("a", []), ("c", [])], [], [], []⟩ ↔
      alookup "a"
        (Panel.mk [("a", ⟨[.cleanup]⟩)] [("a", []), ("c", [])] [] [] []).running = none)) :=
  listing_reports_running_iff_instance
    ⟨[("a", ⟨[.cleanup]⟩)], [("a", []), ("c", [])], [], [], []⟩ "a" (by decide)

/-- C4: `GET /api/start/:botname` on a bot that already has an entry in
`runningBots` answers 400 "Bot is already running." (the `AlreadyRunning`
error), leaves the whole supervisor state — in particular the running table —
unchanged, and appends nothing to the spawn log (no second process). -/
theorem start_when_running_fails_conflict (procEnv : EnvMap) (st : Panel) (n : String)
    (h : (alookup n st.running).isSome) :
    startHandler procEnv st n = (st, .alreadyRunning) ∧
    (startHandler procEnv st n).1.running = st.running ∧
    (startHandler procEnv st n).1.spawnLog = st.spawnLog := by
  simp [startHandler, h]

/-- C4 witness: starting the already-running bot `a` in a concrete state. -/
theorem start_when_running_fails_conflict_witness :
    startHandler [] ⟨[("a", ⟨[.cleanup]⟩)], [("a", [])], [], [], []⟩ "a" =
      (⟨[("a", ⟨[.cleanup]⟩)], [("a", [])], [], [], []⟩, .alreadyRunning) :=
  (start_when_running_fails_conflict []
    ⟨[("a", ⟨[.cleanup]⟩)], [("a", [])], [], [], []⟩ "a" (by decide)).1

/-- When no child of the wrapper bears the wrapper's own name, every rename
of the promotion loop succeeds and the loop returns the children already
moved followed by the remaining ones. -/
theorem promoteChildren_ok (n : String) :
    ∀ (rest moved : List (String × FsTree)),
      (∀ p ∈ rest, p.1 ≠ n) →
      promoteChildren n moved rest = .ok (moved ++ rest) := by
  intro rest
  induction rest with
  | nil =>
    intro moved _
    simp [promoteChildren]
  | cons p rest ih =>
    intro moved h
    obtain ⟨c, t⟩ := p
    have hc : c ≠ n := h (c, t) (List.mem_cons_self _ _)
    rw [promoteChildren]
    simp only [hc, if_false]
    rw [ih (moved ++ [(c, t)]) (fun q hq => h q (List.mem_cons_of_mem _ hq))]
    simp

/-- C7 counterexample: an archive extracting to the single wrapper directory
`foo` that contains a child also named `foo`.  The rename of that child
targets `extractPath/foo` — the wrapper itself, a non-empty directory — so it
fails, the upload answers 500, and the working directory afterwards still
holds the wrapper rather than its contents directly, refuting the claim as
universally stated. -/
theorem flatten_wrapper_name_collision_cx :
    autoFixNested [("foo", FsTree.dir [("foo", FsTree.file)])]
      = .error [("foo", FsTree.dir [("foo", FsTree.file)])] ∧
    (autoFixNested [("foo", FsTree.dir [("foo", FsTree.file)])]).toOption = none ∧
    alookup "foo" [("foo", FsTree.dir [("foo", FsTree.file)])]
      = some (FsTree.dir [("foo", FsTree.file)]) :=
  ⟨rfl, rfl, rfl⟩

/-- C7 amended: when extraction yields exactly one top-level entry that is
itself a directory *and no child of it bears the wrapper's own name*, the
auto-fix leaves the working directory holding that directory's contents
directly with the wrapper removed; and the promotion is applied at most once,
never recursively — a single same-shaped wrapper inside the wrapper is
promoted to the top level but is itself left unflattened.  (With a same-named
child the per-child rename targets the wrapper itself and fails; the deploy
errors and the wrapper stays, as the counterexample shows.) -/
theorem upload_flattens_wrapper_once_no_collision :
    (∀ (n : String) (children : List (String × FsTree)),
        (∀ p ∈ children, p.1 ≠ n) →
        autoFixNested [(n, .dir children)] = .ok children) ∧
    (∀ (n m : String) (inner : List (String × FsTree)),
        m ≠ n →
        autoFixNested [(n, .dir [(m, .dir inner)])] = .ok [(m, .dir inner)]) := by
  constructor
  · intro n children h
    show promoteChildren n [] children = .ok children
    rw [promoteChildren_ok n children [] h]
    simp
  · intro n m inner hm
    show promoteChildren n [] [(m, .dir inner)] = .ok [(m, .dir inner)]
    rw [promoteChildren_ok n [(m, .dir inner)] []
      (by simpa using hm)]
    simp

/-- C7 amended witness: a wrapper `wrap` holding `index.js` and `lib/` is
flattened to exactly those contents, and a wrapper holding the single inner
directory `inner/` is flattened once, keeping `inner/` itself intact. -/
theorem upload_flattens_wrapper_once_no_collision_witness :
    autoFixNested
        [("wrap", FsTree.dir [("index.js", FsTree.file), ("lib", FsTree.dir [])])]
      = .ok [("index.js", FsTree.file), ("lib", FsTree.dir [])] ∧
    autoFixNested
        [("wrap", FsTree.dir [("inner", FsTree.dir [("bot.js", FsTree.file)])])]
      = .ok [("inner", FsTree.dir [("bot.js", FsTree.file)])] :=
  ⟨upload_flattens_wrapper_once_no_collision.1 "wrap"
      [("index.js", FsTree.file), ("lib", FsTree.dir [])]
      (by decide),
   upload_flattens_wrapper_once_no_collision.2 "wrap" "inner"
      [("bot.js", FsTree.file)] (by decide)⟩

/-- C8: `GET /api/delete/:botname` on a running bot answers 400
"Bot is running. Stop it first." (the `BusyRunning` error) and changes
nothing: the `bots/` directory and the registry store keep their contents. -/
theorem delete_while_running_busy (st : Panel) (n : String)
    (h : (alookup n st.running).isSome) :
    deleteHandler st n = (st, .busyRunning) ∧
    (deleteHandler st n).1.fs = st.fs ∧
    (deleteHandler st n).1.db = st.db := by
  simp [deleteHandler, h]

/-- C8 witness: deleting the running bot `a` in a concrete state with a
working directory and a registry record. -/
theorem delete_while_running_busy_witness :
    deleteHandler ⟨[("a", ⟨[.cleanup]⟩)], [("a", [("K", "V")])],
        [("a", ⟨.absent, ["index.js"]⟩)], [], []⟩ "a" =
      (⟨[("a", ⟨[.cleanup]⟩)], [("a", [("K", "V")])],
        [("a", ⟨.absent, ["index.js"]⟩)], [], []⟩, .busyRunning) :=
  (delete_while_running_busy
    ⟨[("a", ⟨[.cleanup]⟩)], [("a", [("K", "V")])],
      [("a", ⟨.absent, ["index.js"]⟩)], [], []⟩ "a" (by decide)).1

/-- A dispatch of `/api/restart/<n>` while `n` has no entry in `runningBots`
never completes, for any amount of fuel: the else branch of the restart
handler re-dispatches the same request, whose URL still selects the restart
route, so the recursion never reaches the start handler. -/
theorem dispatch_restart_stopped_diverges (procEnv : EnvMap) (st : Panel) (n : String)
    (h : alookup n st.running = none) :
    ∀ fuel, dispatchApp fuel procEnv st ["api", "restart", n] = none := by
  intro fuel
  induction fuel with
  | zero => rfl
  | succ k ih =>
    show dispatchApp (k + 1) procEnv st ["api", "restart", n] = none
    rw [dispatchApp]
    simp only [show parseRoute ["api", "restart", n] = Route.restart n from rfl, h]
    exact ih

/-- The state in which `GET /api/restart/b` arrives: bot `b` is running with
the one cleanup listener the start handler registered. -/
def restartScene0 : Panel :=
  ⟨[("b", ⟨[.cleanup]⟩)], [("b", [])], [], [], []⟩

/-- After the restart handler's synchronous part: one extra one-shot `close`
listener carrying the captured `/api/restart/b` request, and a `kill()`
issued to `b`'s process. -/
def restartScene1 : Panel :=
  ⟨[("b", ⟨[.cleanup, .restartOnce ["api", "restart", "b"]]⟩)], [("b", [])], [], [], ["b"]⟩

/-- After `b`'s process exit is observed: the cleanup listener has removed
`b` from `runningBots`; the restart listener has scheduled its 1-second
timer. -/
def restartScene2 : Panel :=
  ⟨[], [("b", [])], [], [], ["b"]⟩

/-- C2: evaluating `GET /api/restart/b` on the running bot `b`.  The handler
does request termination (`kill`), but the timer callback
`app.get('/api/start/:botname', () => {})(req, res)` registers a dummy route
and re-dispatches the *original* `/api/restart/b` request through the app;
since `b` is no longer running, the restart handler's else branch re-issues
the same dispatch forever.  The start handler is never invoked: for every
fuel the dispatch fails to complete, no spawn is logged, and the running
table ends with zero — not one — `RunningInstance` for `b`. -/
theorem restart_running_respawns_nothing :
    dispatchApp 1 [] restartScene0 ["api", "restart", "b"] = some restartScene1 ∧
    restartScene1.killed = ["b"] ∧
    fireClose restartScene1 "b" = (restartScene2, [["api", "restart", "b"]]) ∧
    (∀ fuel, dispatchApp fuel [] restartScene2 ["api", "restart", "b"] = none) ∧
    alookup "b" restartScene2.running = none ∧
    restartScene2.spawnLog = [] :=
  ⟨rfl, rfl, rfl,
    fun fuel => dispatch_restart_stopped_diverges [] restartScene2 "b" rfl fuel,
    rfl, rfl⟩

/-- C3 counterexample: invoking `GET /api/restart/a` twice while bot `a`'s
process has not yet exited leaves two one-shot restart listeners on the
process — three exit-observers in total, counting the start handler's
cleanup listener — refuting "never more than one exit-observer". -/
theorem restart_twice_leaks_exit_observers :
    iterateRestart [] 2 ⟨[("a", ⟨[.cleanup]⟩)], [("a", [])], [], [], []⟩ "a" =
      some ⟨[("a", ⟨[.cleanup, .restartOnce ["api", "restart", "a"],
                     .restartOnce ["api", "restart", "a"]]⟩)],
            [("a", [])], [], [], ["a", "a"]⟩ ∧
    restartObservers ⟨[.cleanup, .restartOnce ["api", "restart", "a"],
                       .restartOnce ["api", "restart", "a"]]⟩ = 2 ∧
    1 < (ProcHandle.mk [.cleanup, .restartOnce ["api", "restart", "a"],
                        .restartOnce ["api", "restart", "a"]]).listeners.length :=
  ⟨rfl, rfl, by decide⟩

/-- C3 amended: each restart call made while the bot's process has not yet
exited attaches one more one-shot exit listener to the process handle; after
`k` calls the handle carries its original listeners plus exactly `k` restart
observers — duplicate exit listeners leak linearly in the number of calls. -/
theorem restart_attaches_one_observer_per_call (procEnv : EnvMap) (k : Nat) :
    ∀ (st : Panel) (n : String) (p : ProcHandle),
      alookup n st.running = some p →
      ∃ st', iterateRestart procEnv k st n = some st' ∧
        alookup n st'.running =
          some ⟨p.listeners ++
            List.replicate k (.restartOnce ["api", "restart", n])⟩ := by
  induction k with
  | zero =>
    intro st n p h
    exact ⟨st, rfl, by simpa using h⟩
  | succ m ih =>
    intro st n p h
    have hd : dispatchApp 1 procEnv st ["api", "restart", n]
        = some (restartAttach st n ["api", "restart", n]) := by
      rw [dispatchApp]
      simp only [show parseRoute ["api", "restart", n] = Route.restart n from rfl, h]
    have h' : alookup n (restartAttach st n ["api", "restart", n]).running
        = some ⟨p.listeners ++ [.restartOnce ["api", "restart", n]]⟩ := by
      simpa [restartAttach] using
        alookup_updAssoc_self st.running n
          (fun q => ⟨q.listeners ++ [.restartOnce ["api", "restart", n]]⟩) p h
    obtain ⟨st', h1, h2⟩ := ih (restartAttach st n ["api", "restart", n]) n
      ⟨p.listeners ++ [.restartOnce ["api", "restart", n]]⟩ h'
    refine ⟨st', ?_, ?_⟩
    · rw [iterateRestart, hd]
      exact h1
    · rw [h2]
      simp [List.replicate_succ, List.append_assoc]

/-- C3 amended witness: five restarts of the running bot `a` leave the
cleanup listener plus exactly five restart observers on the handle. -/
theorem restart_attaches_one_observer_per_call_witness :
    ∃ st', iterateRestart [] 5 ⟨[("a", ⟨[.cleanup]⟩)], [("a", [])], [], [], []⟩ "a"
        = some st' ∧
      alookup "a" st'.running =
        some ⟨[CloseListener.cleanup] ++
          List.replicate 5 (.restartOnce ["api", "restart", "a"])⟩ :=
  restart_attaches_one_observer_per_call [] 5
    ⟨[("a", ⟨[.cleanup]⟩)], [("a", [])], [], [], []⟩ "a" ⟨[.cleanup]⟩ rfl

/-- C5: the environment the start handler resolves (line 182,
`{ ...process.env, ...botEnv }`) is the supervisor's own environment overlaid
with the bot's persisted `envOverrides`: every key the overrides do not bind
keeps the supervisor's value, and every key the overrides bind gets the
override's value; and whenever the start handler actually spawns, the spawned
environment is exactly this overlay of the bot's persisted record. -/
theorem start_env_overlay (procEnv : EnvMap) (st : Panel) (n : String) (e : EnvMap)
    (he : alookup n st.db = some e) :
    (∀ script env', (startHandler procEnv st n).2 = .started script env' →
        env' = jsSpread2 procEnv e) ∧
    (∀ k, alookup k e = none →
        alookup k (jsSpread2 procEnv e) = alookup k procEnv) ∧
    (∀ k v, alookup k e = some v →
        alookup k (jsSpread2 procEnv e) = some v) := by
  refine ⟨?_, ?_, ?_⟩
  · intro script env' hs
    unfold startHandler at hs
    by_cases hr : (alookup n st.running).isSome
    · simp [hr] at hs
    · simp only [hr, if_false, Bool.false_eq_true] at hs
      cases hm : getMainScript ((alookup n st.fs).getD ⟨.absent, []⟩) with
      | none => simp [hm] at hs
      | some s =>
        simp [hm, he, StartResult.started.injEq] at hs
        exact hs.2.symm
  · intro k hk
    rw [alookup_jsSpread2, hk]
    rfl
  · intro k v hk
    rw [alookup_jsSpread2, hk]
    rfl

/-- C5 witness: with supervisor environment `PATH, HOME` and persisted
overrides `PATH, TOKEN`, the resolved overlay keeps the override's `PATH` and
the supervisor's `HOME`. -/
theorem start_env_overlay_witness :
    alookup "PATH"
        (jsSpread2 [("PATH", "sys"), ("HOME", "h")] [("PATH", "override"), ("TOKEN", "t")])
      = some "override" ∧
    alookup "HOME"
        (jsSpread2 [("PATH", "sys"), ("HOME", "h")] [("PATH", "override"), ("TOKEN", "t")])
      = alookup "HOME" [("PATH", "sys"), ("HOME", "h")] :=
  ⟨(start_env_overlay [("PATH", "sys"), ("HOME", "h")]
      ⟨[], [("a", [("PATH", "override"), ("TOKEN", "t")])], [], [], []⟩ "a"
      [("PATH", "override"), ("TOKEN", "t")] rfl).2.2 "PATH" "override" rfl,
   (start_env_overlay [("PATH", "sys"), ("HOME", "h")]
      ⟨[], [("a", [("PATH", "override"), ("TOKEN", "t")])], [], [], []⟩ "a"
      [("PATH", "override"), ("TOKEN", "t")] rfl).2.1 "HOME" rfl⟩

/-- C6 counterexample: for the registered bot `a`, key `K` and value `""`
(which line 285 accepts — only `undefined` is rejected for values), the
set-then-get half of the round trip holds, but `deleteEnvVar` then fails with
404 "Variable not found." because the stored value `""` is falsy at the
line-308 guard, and `getEnv` still reports `K` — refuting the universally
quantified round-trip claim at `V = ""`. -/
theorem env_roundtrip_falsy_value_cx :
    setEnvVarHandler [("a", [])] "a" "K" "" = .ok [("a", [("K", "")])] ∧
    getEnvHandler [("a", [("K", "")])] "a" = .ok [("K", "")] ∧
    alookup "K" [("K", "")] = some "" ∧
    deleteEnvVarHandler [("a", [("K", "")])] "a" "K"
      = .error (.notFound "Variable not found.") ∧
    dbAfterEnvDelete [("a", [("K", "")])] "a" "K" = [("a", [("K", "")])] :=
  ⟨rfl, rfl, rfl, rfl, rfl⟩

/-- C6 amended: for every registered unit `U`, non-empty key `K` and value
`V`, `setEnvVar(U,K,V)` then `getEnv(U)` yields a mapping binding `K` to `V`;
and `deleteEnvVar(U,K)` then `getEnv(U)` yields a mapping without `K`
provided the value stored at `K` is non-empty (truthy) when the delete runs. -/
theorem env_roundtrip_nonfalsy :
    (∀ (db : DbMap) (n : String) (e : EnvMap) (k v : String),
        alookup n db = some e → k ≠ "" →
        ∃ db', setEnvVarHandler db n k v = .ok db' ∧
          ∃ e', getEnvHandler db' n = .ok e' ∧ alookup k e' = some v) ∧
    (∀ (db : DbMap) (n : String) (e : EnvMap) (k v : String),
        alookup n db = some e → alookup k e = some v → k ≠ "" → v ≠ "" →
        ∃ db', deleteEnvVarHandler db n k = .ok db' ∧
          ∃ e', getEnvHandler db' n = .ok e' ∧ alookup k e' = none) := by
  constructor
  · intro db n e k v hn hk
    refine ⟨updAssoc db n (fun e0 => jsSet e0 k v), ?_, ?_⟩
    · simp [setEnvVarHandler, hk, hn]
    · refine ⟨jsSet e k v, ?_, alookup_jsSet_self e k v⟩
      have h := alookup_updAssoc_self db n (fun e0 => jsSet e0 k v) e hn
      simp [getEnvHandler, h]
  · intro db n e k v hn hkv hk hv
    refine ⟨updAssoc db n (fun e0 => jsDelete e0 k), ?_, ?_⟩
    · simp [deleteEnvVarHandler, hk, hn, hkv, hv]
    · refine ⟨jsDelete e k, ?_, alookup_jsDelete_self e k⟩
      have h := alookup_updAssoc_self db n (fun e0 => jsDelete e0 k) e hn
      simp [getEnvHandler, h]

/-- C6 amended witness: the round trip at bot `a`, key `K`, value `V`. -/
theorem env_roundtrip_nonfalsy_witness :
    (∃ db', setEnvVarHandler [("a", [])] "a" "K" "V" = .ok db' ∧
      ∃ e', getEnvHandler db' "a" = .ok e' ∧ alookup "K" e' = some "V") ∧
    (∃ db', deleteEnvVarHandler [("a", [("K", "V")])] "a" "K" = .ok db' ∧
      ∃ e', getEnvHandler db' "a" = .ok e' ∧ alookup "K" e' = none) :=
  ⟨env_roundtrip_nonfalsy.1 [("a", [])] "a" [] "K" "V" rfl (by decide),
   env_roundtrip_nonfalsy.2 [("a", [("K", "V")])] "a" [("K", "V")] "K" "V"
     rfl rfl (by decide) (by decide)⟩

/-- C9: when the bot directory's `package.json` parses and declares a
non-empty `main`, the start handler uses that value as the entrypoint and
spawns — the theorem holds for every file list, in particular ones not
containing the named file, so no existence check is performed; and the 404
"Bot main script not found." answer occurs exactly when no manifest `main` is
resolvable and neither `index.js` nor `bot.js` exists in the directory. -/
theorem start_manifest_main_no_existence_check :
    (∀ (procEnv : EnvMap) (st : Panel) (n : String) (d : BotDir) (m : String),
        alookup n st.running = none →
        alookup n st.fs = some d →
        d.pkg = .parsed (some m) → m ≠ "" →
        (startHandler procEnv st n).2
            = .started m (jsSpread2 procEnv ((alookup n st.db).getD [])) ∧
        (startHandler procEnv st n).1.spawnLog = st.spawnLog ++ [(n, m)]) ∧
    (∀ (procEnv : EnvMap) (st : Panel) (n : String) (d : BotDir),
        alookup n st.running = none →
        alookup n st.fs = some d →
        ((startHandler procEnv st n).2 = .entrypointNotFound ↔
          (mainResolvable d = false ∧
            "index.js" ∉ d.files ∧ "bot.js" ∉ d.files))) := by
  constructor
  · intro pe st n d m hr hfs hpkg hm
    have hms : getMainScript d = some m := by simp [getMainScript, hpkg, hm]
    constructor <;> simp [startHandler, hr, hfs, hms]
  · intro pe st n d hr hfs
    rw [← getMainScript_eq_none_iff]
    cases hms : getMainScript d with
    | none => simp [startHandler, hr, hfs, hms]
    | some s => simp [startHandler, hr, hfs, hms]

/-- C9 witness: bot `a` declares `main: "app.js"` while its directory
contains no file at all; start still spawns with entrypoint `app.js`. -/
theorem start_manifest_main_no_existence_check_witness :
    (startHandler [] ⟨[], [], [("a", ⟨.parsed (some "app.js"), []⟩)], [], []⟩ "a").2
        = .started "app.js" (jsSpread2 [] []) ∧
    (startHandler [] ⟨[], [], [("a", ⟨.parsed (some "app.js"), []⟩)], [], []⟩ "a").1.spawnLog
        = [] ++ [("a", "app.js")] :=
  start_manifest_main_no_existence_check.1 []
    ⟨[], [], [("a", ⟨.parsed (some "app.js"), []⟩)], [], []⟩ "a"
    ⟨.parsed (some "app.js"), []⟩ "app.js" rfl rfl rfl (by decide)

/-- C10 counterexample: when the key itself is the empty string (its persisted
value also the falsy `""`), the line-305 guard fires first and the endpoint
answers 400 "Key is required." — not the claimed 404 "Variable not found." —
refuting the claim as universally stated over keys. -/
theorem delete_env_empty_key_rejected_early :
    deleteEnvVarHandler [("a", [("", "")])] "a" ""
      = .error (.badRequest "Key is required.") ∧
    deleteEnvVarHandler [("a", [("", "")])] "a" ""
      ≠ .error (.notFound "Variable not found.") ∧
    alookup "" [("", "")] = some "" ∧
    dbAfterEnvDelete [("a", [("", "")])] "a" "" = [("a", [("", "")])] :=
  ⟨rfl, by
    intro h
    have h0 : (Except.error (ApiErr.badRequest "Key is required.") : Except ApiErr DbMap)
        = .error (.notFound "Variable not found.") := h
    injection h0 with h1
    exact ApiErr.noConfusion h1, rfl, rfl⟩

/-- C10 amended: for every registered unit `U` and *non-empty* key `K` whose
persisted value is the falsy empty string, `deleteEnvVar(U,K)` fails with 404
"Variable not found." and leaves the store unchanged, even though `K` is
present in the mapping (an empty key is instead rejected earlier with 400
"Key is required.", also leaving the store unchanged). -/
theorem delete_env_falsy_value_not_found (db : DbMap) (n k : String) (e : EnvMap)
    (hn : alookup n db = some e) (hk : alookup k e = some "") (hne : k ≠ "") :
    deleteEnvVarHandler db n k = .error (.notFound "Variable not found.") ∧
    dbAfterEnvDelete db n k = db := by
  have h1 : deleteEnvVarHandler db n k = .error (.notFound "Variable not found.") := by
    simp [deleteEnvVarHandler, hne, hn, hk]
  refine ⟨h1, ?_⟩
  unfold dbAfterEnvDelete
  rw [h1]
  rfl

/-- C10 amended witness: bot `a` with `T` persisted as the empty string. -/
theorem delete_env_falsy_value_not_found_witness :
    deleteEnvVarHandler [("a", [("T", "")])] "a" "T"
      = .error (.notFound "Variable not found.") ∧
    dbAfterEnvDelete [("a", [("T", "")])] "a" "T" = [("a", [("T", "")])] :=
  delete_env_falsy_value_not_found [("a", [("T", "")])] "a" "T" [("T", "")]
    rfl rfl (by decide)

end BotPanel
